import Mathlib

/-!
Verification of the MAHSA-LEARN course progression and scoring engine.

The definitions below are a shallow embedding of the TypeScript source:
the `CoursePlayer` component (slide sequencing, quiz evaluation, per-slide
XP accrual) and the `App` handlers (`handleCompleteCourse` with its badge
logic, `handleImportUsers`) together with the `EducatorDashboard` CSV user
parsing (`handleFileChange`) and edit-user flow (`handleSaveUser`).
Presentation-only state (video loading spinners, CSS classes) is not
modelled.  Machine numbers are modelled as `Nat`: every quantity involved
(XP, indices, lengths) is a small non-negative integer in the source.
-/

namespace MahsaLearn

/-- Slide variants, from `types.ts` (`SlideType`). -/
inductive SlideType
  | intro
  | video
  | quiz
  | summary
deriving DecidableEq, Repr

/-- Quiz payload of a quiz slide, from `types.ts` (`Slide.quizData`). -/
structure QuizData where
  question : String
  options : List String
  correctIndex : Nat
deriving DecidableEq, Repr

/-- A slide, from `types.ts` (`Slide`). -/
structure Slide where
  id : String
  type : SlideType
  title : String
  content : String
  image : Option String := none
  quizData : Option QuizData := none
deriving DecidableEq, Repr

/-- A course, from `types.ts` (`Course`).  The optional creation timestamp
is irrelevant to every claim and omitted. -/
structure Course where
  id : String
  title : String
  category : String
  slides : List Slide
  xpReward : Nat
  durationMinutes : Nat
deriving DecidableEq, Repr

/-- The fixed per-slide XP constant (`XP_PER_SLIDE` in `CoursePlayer`). -/
def XP_PER_SLIDE : Nat := 50

/-- The `CoursePlayer` session state: the `useState` hooks
`currentSlideIndex`, `selectedOption`, `isAnswerChecked`, `isCorrect`,
`failedSlides`, `sessionXp`.  The `isVideoLoading` / `videoKey` hooks are
presentational and not modelled. -/
structure PlayerState where
  currentSlideIndex : Nat
  selectedOption : Option Nat
  isAnswerChecked : Bool
  isCorrect : Bool
  failedSlides : Finset String
  sessionXp : Nat
deriving DecidableEq

/-- Initial session state: index 0, nothing selected or checked, empty
failed set, zero session XP. -/
def initialPlayerState : PlayerState :=
  { currentSlideIndex := 0
    selectedOption := none
    isAnswerChecked := false
    isCorrect := false
    failedSlides := ∅
    sessionXp := 0 }

/-- Events the player emits to the owning application: `onQuizAttempt`
(fired inside `handleQuizSubmit`) and `onComplete` (fired inside
`handleNext` on the last slide).  The wall-clock timestamp is attached by
the application (`Date.now()` in `handleQuizAttempt`), outside this
embedding. -/
inductive PlayerEvent
  | attempt (courseId slideId question selectedOption : String) (isCorrect : Bool)
  | complete (courseId : String) (xp : Nat)
deriving DecidableEq, Repr

/-- Scoring rule `calculateSlideXp` of `CoursePlayer`: a quiz slide whose
id is in `failedSlides` awards 0, every other slide awards
`XP_PER_SLIDE`. -/
def calculateSlideXp (failedSlides : Finset String) (s : Slide) : Nat :=
  if s.type = SlideType.quiz ∧ s.id ∈ failedSlides then 0 else XP_PER_SLIDE

/-- The slide currently displayed: `course.slides[currentSlideIndex]`.
`none` models the JavaScript `undefined` produced by an out-of-bounds
access (in particular on an empty course). -/
def currentSlide (c : Course) (st : PlayerState) : Option Slide :=
  c.slides.get? st.currentSlideIndex

/-- Handler `handleNext` of `CoursePlayer`: adds the current slide's XP;
on the last slide it emits `onComplete(course.id, newTotalXp)` and leaves
the session state alone (the caller discards the session), otherwise it
advances the index and clears the answer state. -/
def handleNext (c : Course) (slide : Slide) (st : PlayerState) :
    PlayerState × List PlayerEvent :=
  let earnedForThisSlide := calculateSlideXp st.failedSlides slide
  let newTotalXp := st.sessionXp + earnedForThisSlide
  if st.currentSlideIndex = c.slides.length - 1 then
    (st, [PlayerEvent.complete c.id newTotalXp])
  else
    ({ st with
        sessionXp := newTotalXp
        currentSlideIndex := st.currentSlideIndex + 1
        selectedOption := none
        isAnswerChecked := false
        isCorrect := false }, [])

/-- Handler `handleRetry` of `CoursePlayer`: clears the answer state and
nothing else (in particular `failedSlides` is untouched). -/
def handleRetry (st : PlayerState) : PlayerState :=
  { st with isAnswerChecked := false, selectedOption := none, isCorrect := false }

/-- Handler `handleQuizSubmit` of `CoursePlayer`: early-returns unless an
option is selected and the slide carries quiz data; otherwise evaluates
the selection, records failure in `failedSlides` when incorrect, and
emits exactly one attempt event (`options[selectedOption]` is modelled by
`getD` with the empty string for the JavaScript `undefined`). -/
def handleQuizSubmit (c : Course) (slide : Slide) (st : PlayerState) :
    PlayerState × List PlayerEvent :=
  match st.selectedOption, slide.quizData with
  | some sel, some qd =>
    let correct := decide (sel = qd.correctIndex)
    ({ st with
        isCorrect := correct
        isAnswerChecked := true
        failedSlides :=
          if correct then st.failedSlides else insert slide.id st.failedSlides },
     [PlayerEvent.attempt c.id slide.id qd.question (qd.options.getD sel "") correct])
  | _, _ => (st, [])

/-- Clicking an option button: `onClick` runs
`!isAnswerChecked && setSelectedOption(idx)`. -/
def handleSelectOption (st : PlayerState) (idx : Nat) : PlayerState :=
  if st.isAnswerChecked then st else { st with selectedOption := some idx }

/-- Number of rendered option buttons for a slide
(`slide.quizData?.options.map(...)`, nothing when `quizData` is
missing). -/
def optionCount (slide : Slide) : Nat :=
  match slide.quizData with
  | some qd => qd.options.length
  | none => 0

/-- The operations a user can perform on the player. -/
inductive PlayerOp
  | selectOption (idx : Nat)
  | submitAnswer
  | retry
  | advance
deriving DecidableEq, Repr

/-- Rejection conditions.  The first five are the spec taxonomy;
`retryNotAllowed` names the (unnamed in the spec) rejection of `retry`
outside its precondition; `undefinedSlide` models the JavaScript
`undefined` dereference when `course.slides[currentSlideIndex]` is out of
bounds. -/
inductive PlayerError
  | invalidCourse
  | noSelection
  | wrongSlideType
  | alreadyChecked
  | quizNotResolved
  | retryNotAllowed
  | undefinedSlide
deriving DecidableEq, Repr

/-- One engine operation.  Availability is exactly the `CoursePlayer`
footer dispatch: `showQuizCheckBtn = slide.type === 'quiz' &&
!isAnswerChecked` renders the Check Answer button (disabled while
`selectedOption === null`); otherwise `slide.type === 'quiz' && !isCorrect`
renders Try Again, and in every remaining case Continue / Finish renders
and invokes `handleNext`.  Option buttons exist for each entry of
`quizData.options` and ignore clicks once checked.  An unavailable
operation is rejected with the corresponding error and has no effect. -/
def stepE (c : Course) (st : PlayerState) (op : PlayerOp) :
    Except PlayerError (PlayerState × List PlayerEvent) :=
  match currentSlide c st with
  | none => Except.error PlayerError.undefinedSlide
  | some slide =>
    match op with
    | PlayerOp.selectOption idx =>
      if slide.type = SlideType.quiz ∧ idx < optionCount slide then
        Except.ok (handleSelectOption st idx, [])
      else
        Except.ok (st, [])
    | PlayerOp.submitAnswer =>
      if slide.type ≠ SlideType.quiz then
        Except.error PlayerError.wrongSlideType
      else if st.isAnswerChecked then
        Except.error PlayerError.alreadyChecked
      else if st.selectedOption = none then
        Except.error PlayerError.noSelection
      else
        Except.ok (handleQuizSubmit c slide st)
    | PlayerOp.retry =>
      if slide.type = SlideType.quiz ∧ st.isAnswerChecked = true ∧ st.isCorrect = false then
        Except.ok (handleRetry st, [])
      else
        Except.error PlayerError.retryNotAllowed
    | PlayerOp.advance =>
      if slide.type = SlideType.quiz ∧ ¬(st.isAnswerChecked = true ∧ st.isCorrect = true) then
        Except.error PlayerError.quizNotResolved
      else
        Except.ok (handleNext c slide st)

/-- Total step: a rejected operation leaves the state unchanged and emits
nothing. -/
def stepOp (c : Course) (st : PlayerState) (op : PlayerOp) :
    PlayerState × List PlayerEvent :=
  match stepE c st op with
  | Except.ok r => r
  | Except.error _ => (st, [])

/-- States reachable from the initial session state by player
operations. -/
inductive Reachable (c : Course) : PlayerState → Prop
  | init : Reachable c initialPlayerState
  | next {st : PlayerState} (op : PlayerOp) :
      Reachable c st → Reachable c (stepOp c st op).1

/-- The state after running a list of operations from the initial
state. -/
def runOps (c : Course) (ops : List PlayerOp) : PlayerState :=
  ops.foldl (fun st op => (stepOp c st op).1) initialPlayerState

/-- Number of quiz slides of the course whose id lies in the given
failed-slide set (the "ever failed" quizzes of a session). -/
def everFailedQuizCount (c : Course) (failed : Finset String) : Nat :=
  (c.slides.filter (fun s => decide (s.type = SlideType.quiz ∧ s.id ∈ failed))).length

/-- Session invariant: the index is in bounds and the banked session XP
is the sum of the per-slide awards of the slides already advanced past,
evaluated at the current failed-slide set. -/
def sessionInv (c : Course) (st : PlayerState) : Prop :=
  st.currentSlideIndex < c.slides.length
  ∧ st.sessionXp
      = ((c.slides.take st.currentSlideIndex).map (calculateSlideXp st.failedSlides)).sum

/-- User roles, from `types.ts` (`Role`). -/
inductive Role
  | nurse
  | educator
deriving DecidableEq, Repr

/-- A recorded quiz attempt, from `types.ts` (`QuizAttempt`). -/
structure QuizAttempt where
  courseId : String
  slideId : String
  question : String
  selectedOption : String
  isCorrect : Bool
  timestamp : Nat
deriving DecidableEq, Repr

/-- A user record, from `types.ts` (`User`). -/
structure User where
  id : String
  pin : String
  name : String
  role : Role
  avatar : String
  xp : Nat
  streak : Nat
  badges : List String
  completedCourses : List String
  quizAttempts : List QuizAttempt
deriving DecidableEq, Repr

/-- From `handleCompleteCourse` in `App`: the maximum possible XP of the
completed course, `course.slides.length * 50` when the course id is found
in the application's course list, `0` otherwise. -/
def maxPossibleXp (courses : List Course) (courseId : String) : Nat :=
  match courses.find? (fun cc => cc.id == courseId) with
  | some cc => cc.slides.length * 50
  | none => 0

/-- From `handleCompleteCourse` in `App`:
`earnedXp === maxPossibleXp && maxPossibleXp > 0`. -/
def isPerfectScore (courses : List Course) (courseId : String) (earnedXp : Nat) : Bool :=
  decide (earnedXp = maxPossibleXp courses courseId ∧ 0 < maxPossibleXp courses courseId)

/-- The per-user body of the `users.map` in `handleCompleteCourse`
(specialised to a user whose id matched `auth.currentUser.id`): skip the
update if the course is already completed; otherwise add the earned XP,
append the course id, and push badges `b1` (first course), `b2` (XP
milestone 1000) and `b4` (perfect score) when newly deserved. -/
def completeCourseUser (perfect : Bool) (courseId : String) (earnedXp : Nat)
    (u : User) : User :=
  if courseId ∈ u.completedCourses then u
  else
    let newXp := u.xp + earnedXp
    let newCompleted := u.completedCourses ++ [courseId]
    let badgesAfterFirst :=
      if newCompleted.length = 1 ∧ "b1" ∉ u.badges then u.badges ++ ["b1"] else u.badges
    let badgesAfterMilestone :=
      if 1000 ≤ newXp ∧ "b2" ∉ badgesAfterFirst then badgesAfterFirst ++ ["b2"]
      else badgesAfterFirst
    let badgesAfterPerfect :=
      if perfect = true ∧ "b4" ∉ badgesAfterMilestone then badgesAfterMilestone ++ ["b4"]
      else badgesAfterMilestone
    { u with xp := newXp, badges := badgesAfterPerfect, completedCourses := newCompleted }

/-- Handler `handleCompleteCourse` of `App`, as a function of the course
list, the user collection, the logged-in user's id and the completion
delta `(courseId, earnedXp)` reported by the player. -/
def handleCompleteCourse (courses : List Course) (users : List User)
    (currentUserId courseId : String) (earnedXp : Nat) : List User :=
  let perfect := isPerfectScore courses courseId earnedXp
  users.map (fun u =>
    if u.id = currentUserId then completeCourseUser perfect courseId earnedXp u else u)

/-- The object spread `{ ...updatedUsers[index], ...imported }` in
`handleImportUsers`: every `User` field is present on the imported record,
so each field of the base is overridden. -/
def mergeSpread (base imported : User) : User :=
  { base with
      id := imported.id
      pin := imported.pin
      name := imported.name
      role := imported.role
      avatar := imported.avatar
      xp := imported.xp
      streak := imported.streak
      badges := imported.badges
      completedCourses := imported.completedCourses
      quizAttempts := imported.quizAttempts }

/-- One iteration of the `importedUsers.forEach` loop in
`handleImportUsers`: replace the record at the first index with a matching
id, or append. -/
def importOne (acc : List User) (imported : User) : List User :=
  match acc.findIdx? (fun u => u.id == imported.id) with
  | some i => acc.set i (mergeSpread (acc.getD i imported) imported)
  | none => acc ++ [imported]

/-- Handler `handleImportUsers` of `App` (the API-backed version): folds
the imported records over the current user collection. -/
def handleImportUsers (users imported : List User) : List User :=
  imported.foldl importOne users

/-- Role validation in `handleFileChange` of `EducatorDashboard`:
`(role === 'Nurse' || role === 'Educator') ? role : 'Nurse'`. -/
def parseCsvRole (s : String) : Role :=
  if s = "Nurse" then Role.nurse
  else if s = "Educator" then Role.educator
  else Role.nurse

/-- One CSV data row of `handleFileChange`: split on commas, require at
least 4 fields and non-empty id, name and pin; the produced user always
has `xp := 0`, `streak := 0` and empty badge / completion / attempt lists.
The `encodeURIComponent` in the avatar URL is not modelled (no claim
depends on the avatar string). -/
def parseCsvLine (line : String) : Option User :=
  let parts := line.splitOn ","
  if 4 ≤ parts.length then
    let id := (parts.getD 0 "").trim
    let nm := ((parts.getD 1 "").replace "\"" "").trim
    let pin := (parts.getD 2 "").trim
    let role := parseCsvRole (parts.getD 3 "").trim
    if id ≠ "" ∧ nm ≠ "" ∧ pin ≠ "" then
      some { id := id
             pin := pin
             name := nm
             role := role
             avatar := "https://ui-avatars.com/api/?name=" ++ nm ++ "&background=random"
             xp := 0
             streak := 0
             badges := []
             completedCourses := []
             quizAttempts := [] }
    else none
  else none

/-- The parsing loop of `handleFileChange`: skip the header line (index
0), skip blank lines, parse the rest. -/
def parseCsvUsers (text : String) : List User :=
  ((text.splitOn "\n").drop 1).filterMap (fun line =>
    let l := line.trim
    if l = "" then none else parseCsvLine l)

/-- The edit branch of `handleSaveUser` in `EducatorDashboard`: spreads
the original user (preserving xp, badges, completed courses, attempts)
and overrides name, pin, role and possibly the avatar. -/
def editUpdatedUser (originalUser : User) (nm pin : String) (role : Role) : User :=
  { originalUser with
      name := nm
      pin := pin
      role := role
      avatar :=
        if originalUser.name ≠ nm then
          "https://ui-avatars.com/api/?name=" ++ nm ++ "&background=random"
        else originalUser.avatar }

/-- Modelled from the spec: the engine operation `start(course)` with its
`InvalidCourse` guard is implemented nowhere under the sources — the
`CoursePlayer` component mounts the session unconditionally.  Per the
spec, `start` fails with `InvalidCourse` when `course.slides` is empty
and otherwise yields the initial session state. -/
def specStart (c : Course) : Except PlayerError PlayerState :=
  if c.slides = [] then Except.error PlayerError.invalidCourse
  else Except.ok initialPlayerState

/-- Concrete fixtures for witnesses and counterexamples. -/
def introSlide : Slide :=
  { id := "s1", type := SlideType.intro, title := "Welcome", content := "Hello" }

def videoSlide : Slide :=
  { id := "s2", type := SlideType.video, title := "Watch", content := "https://v" }

def quizSlide : Slide :=
  { id := "s3", type := SlideType.quiz, title := "Quiz", content := ""
    quizData := some { question := "Q1", options := ["A", "B"], correctIndex := 0 } }

def summarySlide : Slide :=
  { id := "s4", type := SlideType.summary, title := "Recap", content := "Bye" }

def exampleCourse : Course :=
  { id := "course1", title := "Hand Hygiene", category := "Safety"
    slides := [introSlide, videoSlide, quizSlide, summarySlide]
    xpReward := 200, durationMinutes := 4 }

def emptyCourse : Course :=
  { id := "course0", title := "Empty", category := "Safety"
    slides := [], xpReward := 0, durationMinutes := 0 }

/-- Trace completing `exampleCourse` with the quiz failed once and then
corrected: the final `advance` emits the completion event. -/
def opsRetryRun : List PlayerOp :=
  [PlayerOp.advance, PlayerOp.advance,
   PlayerOp.selectOption 1, PlayerOp.submitAnswer,
   PlayerOp.retry, PlayerOp.selectOption 0, PlayerOp.submitAnswer,
   PlayerOp.advance]

def demoUser : User :=
  { id := "u1", pin := "1234", name := "Alice", role := Role.nurse
    avatar := "", xp := 100, streak := 0, badges := ["b1"]
    completedCourses := ["cX"], quizAttempts := [] }

/-- The user produced by the CSV row `u1,Alice,1234,Nurse,100` of
`handleFileChange` — note `xp = 0` regardless of the row's xp column. -/
def demoImported : User :=
  { id := "u1", pin := "1234", name := "Alice", role := Role.nurse
    avatar := "https://ui-avatars.com/api/?name=Alice&background=random"
    xp := 0, streak := 0, badges := [], completedCourses := [], quizAttempts := [] }

def freshUser : User :=
  { id := "u2", pin := "0000", name := "Bea", role := Role.nurse
    avatar := "", xp := 0, streak := 0, badges := []
    completedCourses := [], quizAttempts := [] }

/-- A two-slide course whose last slide is the quiz (used to witness the
completion event of a failed-then-corrected quiz). -/
def quizFinalCourse : Course :=
  { id := "course2", title := "Quiz Only", category := "Clinical"
    slides := [introSlide, quizSlide], xpReward := 100, durationMinutes := 2 }

/-- Session at the quiz of `quizFinalCourse` after it was failed once and
then answered correctly. -/
def stF : PlayerState :=
  { currentSlideIndex := 1, selectedOption := some 0, isAnswerChecked := true
    isCorrect := true, failedSlides := {"s3"}, sessionXp := 50 }

/-- Session at the quiz of `exampleCourse` with option 1 selected and not
yet checked. -/
def st4 : PlayerState :=
  { currentSlideIndex := 2, selectedOption := some 1, isAnswerChecked := false
    isCorrect := false, failedSlides := ∅, sessionXp := 100 }

/-- Session at the quiz of `exampleCourse` with nothing selected. -/
def stQ0 : PlayerState :=
  { currentSlideIndex := 2, selectedOption := none, isAnswerChecked := false
    isCorrect := false, failedSlides := ∅, sessionXp := 100 }

/-- Session at the quiz of `exampleCourse` just after an incorrect
check. -/
def stQChk : PlayerState :=
  { currentSlideIndex := 2, selectedOption := some 1, isAnswerChecked := true
    isCorrect := false, failedSlides := {"s3"}, sessionXp := 100 }

/-! Helper lemmas. -/

theorem stepOp_of_error {c : Course} {st : PlayerState} {op : PlayerOp}
    {e : PlayerError} (h : stepE c st op = Except.error e) :
    stepOp c st op = (st, []) := by
  simp [stepOp, h]

theorem stepOp_of_ok {c : Course} {st : PlayerState} {op : PlayerOp}
    {r : PlayerState × List PlayerEvent} (h : stepE c st op = Except.ok r) :
    stepOp c st op = r := by
  simp [stepOp, h]

theorem failed_subset_of_eq {s t : Finset String} (h : t = s) : s ⊆ t := by
  cases h
  exact Finset.Subset.refl _

theorem handleSelectOption_failed (st : PlayerState) (idx : Nat) :
    (handleSelectOption st idx).failedSlides = st.failedSlides := by
  simp only [handleSelectOption]
  split <;> rfl

theorem handleNext_failed (c : Course) (slide : Slide) (st : PlayerState) :
    ((handleNext c slide st).1).failedSlides = st.failedSlides := by
  simp only [handleNext]
  split <;> rfl

theorem handleQuizSubmit_failed (c : Course) (slide : Slide) (st : PlayerState) :
    st.failedSlides ⊆ ((handleQuizSubmit c slide st).1).failedSlides := by
  rcases hsel : st.selectedOption with - | sel <;>
    rcases hqd : slide.quizData with - | qd <;>
      simp only [handleQuizSubmit, hsel, hqd]
  · exact Finset.Subset.refl _
  · exact Finset.Subset.refl _
  · exact Finset.Subset.refl _
  · split
    · exact Finset.Subset.refl _
    · exact Finset.subset_insert _ _

theorem stepE_failed_mono {c : Course} {st : PlayerState} {op : PlayerOp}
    {st' : PlayerState} {evs : List PlayerEvent}
    (h : stepE c st op = Except.ok (st', evs)) :
    st.failedSlides ⊆ st'.failedSlides := by
  rcases hcur : currentSlide c st with - | slide
  · simp [stepE, hcur] at h
  · cases op with
    | selectOption idx =>
      simp only [stepE, hcur] at h
      split at h
      · rw [Except.ok.injEq, Prod.mk.injEq] at h
        exact failed_subset_of_eq (by rw [← h.1, handleSelectOption_failed])
      · rw [Except.ok.injEq, Prod.mk.injEq] at h
        exact failed_subset_of_eq (by rw [← h.1])
    | submitAnswer =>
      simp only [stepE, hcur] at h
      split at h
      · exact absurd h (by simp)
      split at h
      · exact absurd h (by simp)
      split at h
      · exact absurd h (by simp)
      rw [Except.ok.injEq] at h
      have h1 : (handleQuizSubmit c slide st).1 = st' := by rw [h]
      exact h1 ▸ handleQuizSubmit_failed c slide st
    | retry =>
      simp only [stepE, hcur] at h
      split at h
      · rw [Except.ok.injEq, Prod.mk.injEq] at h
        exact failed_subset_of_eq (by rw [← h.1]; rfl)
      · exact absurd h (by simp)
    | advance =>
      simp only [stepE, hcur] at h
      split at h
      · exact absurd h (by simp)
      · rw [Except.ok.injEq] at h
        have h1 : (handleNext c slide st).1 = st' := by rw [h]
        exact failed_subset_of_eq (by rw [← h1, handleNext_failed])

/-! Claim theorems. -/

/-- C1: for every slide advanced past, the XP awarded for that slide is
the fixed constant `XP_PER_SLIDE` (= 50) unless the slide is a quiz whose
id is in the session's failed-slide set, in which case it is 0; non-quiz
slides always award the full constant.  The third conjunct ties the award
to the actual `advance` operation: on a non-terminal advance the award is
added to the session XP, on the terminal advance it is included in the
emitted completion total. -/
theorem advance_awards_slide_xp (c : Course) (st : PlayerState) (s : Slide)
    (st' : PlayerState) (evs : List PlayerEvent)
    (hs : currentSlide c st = some s)
    (hok : stepE c st PlayerOp.advance = Except.ok (st', evs)) :
    calculateSlideXp st.failedSlides s =
      (if s.type = SlideType.quiz ∧ s.id ∈ st.failedSlides then 0 else XP_PER_SLIDE)
    ∧ (s.type ≠ SlideType.quiz → calculateSlideXp st.failedSlides s = XP_PER_SLIDE)
    ∧ (st'.sessionXp = st.sessionXp + calculateSlideXp st.failedSlides s
       ∨ (st' = st ∧ evs = [PlayerEvent.complete c.id
            (st.sessionXp + calculateSlideXp st.failedSlides s)])) := by
  refine ⟨rfl, fun h => by simp [calculateSlideXp, h], ?_⟩
  simp only [stepE, hs] at hok
  split at hok
  · exact absurd hok (by simp)
  · rw [Except.ok.injEq] at hok
    simp only [handleNext] at hok
    split at hok
    · rw [Prod.mk.injEq] at hok
      exact Or.inr ⟨hok.1.symm, hok.2.symm⟩
    · rw [Prod.mk.injEq] at hok
      rw [← hok.1]
      exact Or.inl rfl

theorem advance_awards_slide_xp_witness :
    calculateSlideXp initialPlayerState.failedSlides introSlide =
      (if introSlide.type = SlideType.quiz ∧ introSlide.id ∈ initialPlayerState.failedSlides
       then 0 else XP_PER_SLIDE)
    ∧ (introSlide.type ≠ SlideType.quiz →
        calculateSlideXp initialPlayerState.failedSlides introSlide = XP_PER_SLIDE)
    ∧ ((stepOp exampleCourse initialPlayerState PlayerOp.advance).1.sessionXp
         = initialPlayerState.sessionXp
             + calculateSlideXp initialPlayerState.failedSlides introSlide
       ∨ ((stepOp exampleCourse initialPlayerState PlayerOp.advance).1 = initialPlayerState
          ∧ (stepOp exampleCourse initialPlayerState PlayerOp.advance).2
              = [PlayerEvent.complete exampleCourse.id
                  (initialPlayerState.sessionXp
                    + calculateSlideXp initialPlayerState.failedSlides introSlide)])) :=
  advance_awards_slide_xp exampleCourse initialPlayerState introSlide
    (stepOp exampleCourse initialPlayerState PlayerOp.advance).1
    (stepOp exampleCourse initialPlayerState PlayerOp.advance).2
    rfl rfl

/-- C3: membership in the failed-slide set is permanent — every player
operation (select, submit, retry, advance) only grows `failedSlides` —
and advancing past a quiz slide whose id is in the set awards exactly 0
XP even though the advance itself is only possible once the final check
was correct (the `advance` success hypothesis implies `isAnswerChecked`
and `isCorrect`). -/
theorem failed_slides_permanent (c : Course) (st : PlayerState) (op : PlayerOp) :
    st.failedSlides ⊆ (stepOp c st op).1.failedSlides
    ∧ ∀ (s : Slide) (st' : PlayerState) (evs : List PlayerEvent),
        currentSlide c st = some s → s.type = SlideType.quiz →
        s.id ∈ st.failedSlides →
        stepE c st PlayerOp.advance = Except.ok (st', evs) →
        calculateSlideXp st.failedSlides s = 0
        ∧ st'.sessionXp = st.sessionXp
        ∧ ∀ (cid : String) (x : Nat),
            PlayerEvent.complete cid x ∈ evs → x = st.sessionXp := by
  constructor
  · rcases hE : stepE c st op with e | r
    · rw [stepOp_of_error hE]
    · rw [stepOp_of_ok hE]
      exact stepE_failed_mono hE
  · intro s st' evs hs hq hmem hok
    have hzero : calculateSlideXp st.failedSlides s = 0 := by
      simp [calculateSlideXp, hq, hmem]
    refine ⟨hzero, ?_⟩
    simp only [stepE, hs] at hok
    split at hok
    · exact absurd hok (by simp)
    · rw [Except.ok.injEq] at hok
      simp only [handleNext, hzero] at hok
      split at hok
      · rw [Prod.mk.injEq] at hok
        rw [← hok.1, ← hok.2]
        exact ⟨rfl, by simp⟩
      · rw [Prod.mk.injEq] at hok
        rw [← hok.1, ← hok.2]
        exact ⟨by simp, by simp⟩

theorem failed_slides_permanent_witness :
    stF.failedSlides ⊆ (stepOp quizFinalCourse stF PlayerOp.advance).1.failedSlides
    ∧ (calculateSlideXp stF.failedSlides quizSlide = 0
       ∧ (stepOp quizFinalCourse stF PlayerOp.advance).1.sessionXp = stF.sessionXp
       ∧ 50 = stF.sessionXp) := by
  have h := failed_slides_permanent quizFinalCourse stF PlayerOp.advance
  have h2 := h.2 quizSlide
    (stepOp quizFinalCourse stF PlayerOp.advance).1
    (stepOp quizFinalCourse stF PlayerOp.advance).2
    rfl rfl (by decide) rfl
  exact ⟨h.1, h2.1, h2.2.1, h2.2.2 "course2" 50 (by decide)⟩

/-- C4: every successful `submitAnswer` emits exactly one quiz-attempt
record through the attempt-observer callback; its correctness flag is
`selectedOption = correctIndex` and its selected-option field is the text
of the chosen option. -/
theorem submit_emits_one_attempt (c : Course) (st : PlayerState) (s : Slide)
    (qd : QuizData) (sel : Nat) (st' : PlayerState) (evs : List PlayerEvent)
    (hs : currentSlide c st = some s)
    (hqd : s.quizData = some qd)
    (hsel : st.selectedOption = some sel)
    (hlt : sel < qd.options.length)
    (hok : stepE c st PlayerOp.submitAnswer = Except.ok (st', evs)) :
    evs = [PlayerEvent.attempt c.id s.id qd.question (qd.options.getD sel "")
            (decide (sel = qd.correctIndex))]
    ∧ qd.options.get? sel = some (qd.options.getD sel "") := by
  constructor
  · simp only [stepE, hs] at hok
    split at hok
    · exact absurd hok (by simp)
    split at hok
    · exact absurd hok (by simp)
    split at hok
    · exact absurd hok (by simp)
    rw [Except.ok.injEq] at hok
    simp only [handleQuizSubmit, hsel, hqd] at hok
    rw [Prod.mk.injEq] at hok
    exact hok.2.symm
  · simp [List.get?_eq_getElem?, List.getD_eq_getElem?_getD, List.getElem?_eq_getElem hlt]

theorem submit_emits_one_attempt_witness :
    (stepOp exampleCourse st4 PlayerOp.submitAnswer).2
      = [PlayerEvent.attempt exampleCourse.id quizSlide.id "Q1"
          ((["A", "B"] : List String).getD 1 "") (decide (1 = 0))]
    ∧ (["A", "B"] : List String).get? 1 = some ((["A", "B"] : List String).getD 1 "") := by
  have h := submit_emits_one_attempt exampleCourse st4 quizSlide
    { question := "Q1", options := ["A", "B"], correctIndex := 0 } 1
    (stepOp exampleCourse st4 PlayerOp.submitAnswer).1
    (stepOp exampleCourse st4 PlayerOp.submitAnswer).2
    rfl rfl rfl (by decide) rfl
  exact h

/-- C5: each engine operation invoked outside its stated precondition is
rejected with the corresponding error — `submitAnswer` on a non-quiz
slide (`wrongSlideType`), already checked (`alreadyChecked`), or with no
selection (`noSelection`); `advance` on a quiz slide not checked-correct
(`quizNotResolved`); `retry` unless the last answer was an incorrect
checked one — and a rejected operation leaves the session state unchanged
and emits nothing. -/
theorem invalid_ops_rejected (c : Course) (st : PlayerState) (s : Slide)
    (hs : currentSlide c st = some s) :
    (s.type ≠ SlideType.quiz →
      stepE c st PlayerOp.submitAnswer = Except.error PlayerError.wrongSlideType)
    ∧ (s.type = SlideType.quiz → st.isAnswerChecked = true →
        stepE c st PlayerOp.submitAnswer = Except.error PlayerError.alreadyChecked)
    ∧ (s.type = SlideType.quiz → st.isAnswerChecked = false →
        st.selectedOption = none →
        stepE c st PlayerOp.submitAnswer = Except.error PlayerError.noSelection)
    ∧ (s.type = SlideType.quiz → ¬(st.isAnswerChecked = true ∧ st.isCorrect = true) →
        stepE c st PlayerOp.advance = Except.error PlayerError.quizNotResolved)
    ∧ (¬(s.type = SlideType.quiz ∧ st.isAnswerChecked = true ∧ st.isCorrect = false) →
        stepE c st PlayerOp.retry = Except.error PlayerError.retryNotAllowed)
    ∧ (∀ (op : PlayerOp) (e : PlayerError),
        stepE c st op = Except.error e → stepOp c st op = (st, [])) := by
  refine ⟨?_, ?_, ?_, ?_, ?_, ?_⟩
  · intro h
    simp [stepE, hs, h]
  · intro hq hchk
    simp [stepE, hs, hq, hchk]
  · intro hq hchk hsel
    simp [stepE, hs, hq, hchk, hsel]
  · intro hq hn
    simp only [stepE, hs]
    rw [if_pos ⟨hq, hn⟩]
  · intro hn
    simp only [stepE, hs]
    rw [if_neg hn]
  · intro op e h
    simp [stepOp, h]

theorem mem_b4_chain_iff (l : List String) (P Q : Prop) [Decidable P] [Decidable Q] :
    ("b4" ∈ (if Q then (if P then l ++ ["b1"] else l) ++ ["b2"]
             else (if P then l ++ ["b1"] else l)) ↔ "b4" ∈ l) := by
  have ne1 : ¬("b4" : String) = "b1" := by decide
  have ne2 : ¬("b4" : String) = "b2" := by decide
  split_ifs <;> simp [List.mem_append, ne1, ne2]

theorem mem_b4_final (l2 : List String) (h : "b4" ∉ l2) (P : Prop) [Decidable P] :
    ("b4" ∈ (if P ∧ "b4" ∉ l2 then l2 ++ ["b4"] else l2) ↔ P) := by
  by_cases hP : P
  · rw [if_pos ⟨hP, h⟩]
    simp [List.mem_append, hP]
  · rw [if_neg (fun hc => hP hc.1)]
    simp [h, hP]

theorem completeCourseUser_xp_le (perfect : Bool) (courseId : String)
    (earnedXp : Nat) (u : User) :
    u.xp ≤ (completeCourseUser perfect courseId earnedXp u).xp := by
  by_cases hc : courseId ∈ u.completedCourses
  · simp [completeCourseUser, hc]
  · simp [completeCourseUser, hc]

theorem parseCsvLine_xp {s : String} {u : User} (h : parseCsvLine s = some u) :
    u.xp = 0 := by
  simp only [parseCsvLine] at h
  split at h
  · split at h
    · rw [Option.some.injEq] at h
      rw [← h]
    · exact absurd h (by simp)
  · exact absurd h (by simp)

/-- C6: the perfect-score badge (`b4`) is granted on completion exactly
when the XP earned for the run equals `slideCount * 50` (course found,
non-empty, fresh completion, badge not yet held). -/
theorem perfect_badge_iff (courses : List Course) (c : Course) (courseId : String)
    (earnedXp : Nat) (u : User)
    (hfind : courses.find? (fun cc => cc.id == courseId) = some c)
    (hpos : 0 < c.slides.length)
    (hnc : courseId ∉ u.completedCourses)
    (hnb : "b4" ∉ u.badges) :
    ("b4" ∈ (completeCourseUser (isPerfectScore courses courseId earnedXp)
              courseId earnedXp u).badges
      ↔ earnedXp = c.slides.length * 50) := by
  have hmax : maxPossibleXp courses courseId = c.slides.length * 50 := by
    simp [maxPossibleXp, hfind]
  have hmaxpos : 0 < c.slides.length * 50 := Nat.mul_pos hpos (by norm_num)
  have hperf : isPerfectScore courses courseId earnedXp
      = decide (earnedXp = c.slides.length * 50) := by
    simp [isPerfectScore, hmax, hmaxpos]
  simp only [completeCourseUser, if_neg hnc, hperf]
  have hchain : "b4" ∉
      (if 1000 ≤ u.xp + earnedXp
            ∧ "b2" ∉ (if (u.completedCourses ++ [courseId]).length = 1 ∧ "b1" ∉ u.badges
                      then u.badges ++ ["b1"] else u.badges)
        then (if (u.completedCourses ++ [courseId]).length = 1 ∧ "b1" ∉ u.badges
              then u.badges ++ ["b1"] else u.badges) ++ ["b2"]
        else (if (u.completedCourses ++ [courseId]).length = 1 ∧ "b1" ∉ u.badges
              then u.badges ++ ["b1"] else u.badges)) :=
    fun hm => hnb ((mem_b4_chain_iff u.badges _ _).mp hm)
  exact (mem_b4_final _ hchain _).trans decide_eq_true_iff

theorem perfect_badge_iff_witness :
    ("b4" ∈ (completeCourseUser (isPerfectScore [exampleCourse] "course1" 200)
              "course1" 200 freshUser).badges
      ↔ 200 = exampleCourse.slides.length * 50) :=
  perfect_badge_iff [exampleCourse] exampleCourse "course1" 200 freshUser
    rfl (by decide) (by decide) (by decide)

/-- C7: completion is idempotent at the caller boundary — if the course
id is already in the (matching) user's completed set, re-invoking the
completion handler changes nothing: XP, badges and completed courses are
all left as they were. -/
theorem completion_idempotent (courses : List Course) (users : List User)
    (uid cid : String) (earnedXp : Nat)
    (h : ∀ u ∈ users, u.id = uid → cid ∈ u.completedCourses) :
    handleCompleteCourse courses users uid cid earnedXp = users := by
  revert h
  induction users with
  | nil => intro h; rfl
  | cons u t ih =>
    intro h
    have hu := h u (List.mem_cons_self u t)
    have ht : ∀ v ∈ t, v.id = uid → cid ∈ v.completedCourses :=
      fun v hv => h v (List.mem_cons_of_mem u hv)
    simp only [handleCompleteCourse, List.map_cons]
    have htail := ih ht
    simp only [handleCompleteCourse] at htail
    rw [htail]
    by_cases hid : u.id = uid
    · rw [if_pos hid]
      simp only [completeCourseUser, if_pos (hu hid)]
    · rw [if_neg hid]

theorem completion_idempotent_witness :
    handleCompleteCourse [exampleCourse] [demoUser] "u1" "cX" 200 = [demoUser] :=
  completion_idempotent [exampleCourse] [demoUser] "u1" "cX" 200 (by decide)

/-- C8: the code has no empty-course guard.  On a course with an empty
slide list the player still mounts a session: the current-slide access
`course.slides[0]` is out of bounds (`none`, the JavaScript `undefined`),
the first operation dereferences that missing slide instead of failing
with `InvalidCourse`, and the progress display's denominator
`course.slides.length` is 0.  Only the spec-modelled `start` performs the
`InvalidCourse` rejection the spec requires. -/
theorem empty_course_unguarded :
    currentSlide emptyCourse initialPlayerState = none
    ∧ stepE emptyCourse initialPlayerState PlayerOp.advance
        = Except.error PlayerError.undefinedSlide
    ∧ specStart emptyCourse = Except.error PlayerError.invalidCourse
    ∧ emptyCourse.slides.length = 0 :=
  ⟨rfl, rfl, rfl, rfl⟩

/-- C9 (counterexample): the CSV user import overwrites an existing user
record with the imported one.  `demoUser` starts with xp 100; importing
`demoImported` (the record the CSV parser produces for the row
`u1,Alice,1234,Nurse,100` — xp is always 0, see
`xp_monotone_amended`) replaces the record wholesale, dropping the xp to
0.  This refutes the claim that every operation on the user collection
keeps each existing user's xp non-decreasing. -/
theorem import_resets_xp_counterexample :
    demoUser.xp = 100
    ∧ handleImportUsers [demoUser] [demoImported] = [demoImported]
    ∧ demoImported.xp = 0 := by
  refine ⟨rfl, ?_, rfl⟩
  decide

/-- C9 (amended): a user's xp is non-decreasing under the course
completion handler and under the dashboard's edit-user flow; the CSV user
import, however, merges the entire imported record over an existing user
(`mergeSpread`), and every CSV-parsed user carries xp 0, so importing a
row whose id already exists resets that user's xp to 0. -/
theorem xp_monotone_amended :
    (∀ (perfect : Bool) (courseId : String) (earnedXp : Nat) (u : User),
        u.xp ≤ (completeCourseUser perfect courseId earnedXp u).xp)
    ∧ (∀ (courses : List Course) (users : List User) (uid cid : String)
         (earnedXp : Nat) (i : Nat) (u v : User),
        users.get? i = some u →
        (handleCompleteCourse courses users uid cid earnedXp).get? i = some v →
        u.xp ≤ v.xp)
    ∧ (∀ (originalUser : User) (nm pin : String) (role : Role),
        (editUpdatedUser originalUser nm pin role).xp = originalUser.xp)
    ∧ (∀ (text : String), (parseCsvUsers text).all (fun u => u.xp == 0) = true)
    ∧ (∀ (base imported : User), (mergeSpread base imported).xp = imported.xp) := by
  refine ⟨fun perfect cid xp u => completeCourseUser_xp_le perfect cid xp u,
    ?_, fun o nm pin role => rfl, ?_, fun base imported => rfl⟩
  · intro courses users uid cid earnedXp i u v h1 h2
    simp only [handleCompleteCourse] at h2
    rw [List.get?_map, h1] at h2
    rw [Option.map_some', Option.some.injEq] at h2
    rw [← h2]
    by_cases hid : u.id = uid
    · rw [if_pos hid]
      exact completeCourseUser_xp_le _ _ _ _
    · rw [if_neg hid]
  · intro text
    rw [List.all_eq_true]
    intro u hu
    simp only [parseCsvUsers, List.mem_filterMap] at hu
    obtain ⟨line, -, hparse⟩ := hu
    split at hparse
    · exact absurd hparse (by simp)
    · simp [parseCsvLine_xp hparse]

theorem xp_monotone_amended_witness :
    demoUser.xp ≤ (completeCourseUser false "c9" 50 demoUser).xp
    ∧ demoUser.xp
        ≤ (completeCourseUser (isPerfectScore [] "c9" 50) "c9" 50 demoUser).xp
    ∧ (editUpdatedUser demoUser "Ann" "9999" Role.educator).xp = demoUser.xp
    ∧ (parseCsvUsers "id,name,pin,role,xp").all (fun u => u.xp == 0) = true
    ∧ (mergeSpread demoUser demoImported).xp = demoImported.xp := by
  refine ⟨xp_monotone_amended.1 false "c9" 50 demoUser,
    xp_monotone_amended.2.1 [] [demoUser] "u1" "c9" 50 0 demoUser
      (completeCourseUser (isPerfectScore [] "c9" 50) "c9" 50 demoUser) rfl ?_,
    xp_monotone_amended.2.2.1 demoUser "Ann" "9999" Role.educator,
    xp_monotone_amended.2.2.2.1 "id,name,pin,role,xp",
    xp_monotone_amended.2.2.2.2 demoUser demoImported⟩
  rfl

/-- C10: invoking the completion handler with a course id absent from the
course list still credits the reported XP and appends the id to the
user's completed set, but the perfect-score badge is never awarded: the
maximum possible XP is taken as 0 and a perfect score requires it
positive. -/
theorem unknown_course_completion (courses : List Course) (courseId : String)
    (earnedXp : Nat) (u : User)
    (hfind : courses.find? (fun cc => cc.id == courseId) = none)
    (hnc : courseId ∉ u.completedCourses) :
    maxPossibleXp courses courseId = 0
    ∧ isPerfectScore courses courseId earnedXp = false
    ∧ (completeCourseUser (isPerfectScore courses courseId earnedXp)
        courseId earnedXp u).xp = u.xp + earnedXp
    ∧ (completeCourseUser (isPerfectScore courses courseId earnedXp)
        courseId earnedXp u).completedCourses = u.completedCourses ++ [courseId]
    ∧ ("b4" ∈ (completeCourseUser (isPerfectScore courses courseId earnedXp)
          courseId earnedXp u).badges ↔ "b4" ∈ u.badges) := by
  have hmax : maxPossibleXp courses courseId = 0 := by simp [maxPossibleXp, hfind]
  have hperf : isPerfectScore courses courseId earnedXp = false := by
    simp [isPerfectScore, hmax]
  refine ⟨hmax, hperf, ?_, ?_, ?_⟩
  · simp [completeCourseUser, if_neg hnc]
  · simp [completeCourseUser, if_neg hnc]
  · simp only [completeCourseUser, if_neg hnc, hperf]
    rw [if_neg (fun hc => Bool.false_ne_true hc.1)]
    exact mem_b4_chain_iff u.badges _ _

theorem unknown_course_completion_witness :
    maxPossibleXp [exampleCourse] "ghost" = 0
    ∧ isPerfectScore [exampleCourse] "ghost" 200 = false
    ∧ (completeCourseUser (isPerfectScore [exampleCourse] "ghost" 200)
        "ghost" 200 freshUser).xp = freshUser.xp + 200
    ∧ (completeCourseUser (isPerfectScore [exampleCourse] "ghost" 200)
        "ghost" 200 freshUser).completedCourses
        = freshUser.completedCourses ++ ["ghost"]
    ∧ ("b4" ∈ (completeCourseUser (isPerfectScore [exampleCourse] "ghost" 200)
          "ghost" 200 freshUser).badges ↔ "b4" ∈ freshUser.badges) :=
  unknown_course_completion [exampleCourse] "ghost" 200 freshUser rfl (by decide)

theorem invalid_ops_rejected_witness :
    stepE exampleCourse initialPlayerState PlayerOp.submitAnswer
      = Except.error PlayerError.wrongSlideType
    ∧ stepE exampleCourse stQChk PlayerOp.submitAnswer
        = Except.error PlayerError.alreadyChecked
    ∧ stepE exampleCourse stQ0 PlayerOp.submitAnswer
        = Except.error PlayerError.noSelection
    ∧ stepE exampleCourse stQ0 PlayerOp.advance
        = Except.error PlayerError.quizNotResolved
    ∧ stepE exampleCourse initialPlayerState PlayerOp.retry
        = Except.error PlayerError.retryNotAllowed
    ∧ stepOp exampleCourse initialPlayerState PlayerOp.submitAnswer
        = (initialPlayerState, []) := by
  refine ⟨(invalid_ops_rejected exampleCourse initialPlayerState introSlide rfl).1 (by decide),
    (invalid_ops_rejected exampleCourse stQChk quizSlide rfl).2.1 rfl rfl,
    (invalid_ops_rejected exampleCourse stQ0 quizSlide rfl).2.2.1 rfl rfl rfl,
    (invalid_ops_rejected exampleCourse stQ0 quizSlide rfl).2.2.2.1 rfl (by decide),
    (invalid_ops_rejected exampleCourse initialPlayerState introSlide rfl).2.2.2.2.1 (by decide),
    (invalid_ops_rejected exampleCourse initialPlayerState introSlide rfl).2.2.2.2.2
      PlayerOp.submitAnswer PlayerError.wrongSlideType rfl⟩

theorem sum_calculateSlideXp (failed : Finset String) (l : List Slide) :
    (l.map (calculateSlideXp failed)).sum
      = XP_PER_SLIDE * (l.length
          - (l.filter (fun s => decide (s.type = SlideType.quiz ∧ s.id ∈ failed))).length) := by
  induction l with
  | nil => rfl
  | cons s t ih =>
    have hcount_le :
        (t.filter (fun s => decide (s.type = SlideType.quiz ∧ s.id ∈ failed))).length
          ≤ t.length := List.length_filter_le _ _
    by_cases hP : s.type = SlideType.quiz ∧ s.id ∈ failed
    · have hf : List.filter (fun s => decide (s.type = SlideType.quiz ∧ s.id ∈ failed)) (s :: t)
          = s :: List.filter (fun s => decide (s.type = SlideType.quiz ∧ s.id ∈ failed)) t := by
        simp [List.filter_cons, hP]
      rw [List.map_cons, List.sum_cons, ih, hf, List.length_cons, List.length_cons]
      rw [calculateSlideXp, if_pos hP]
      simp only [XP_PER_SLIDE]
      omega
    · have hf : List.filter (fun s => decide (s.type = SlideType.quiz ∧ s.id ∈ failed)) (s :: t)
          = List.filter (fun s => decide (s.type = SlideType.quiz ∧ s.id ∈ failed)) t := by
        simp [List.filter_cons, hP]
      rw [List.map_cons, List.sum_cons, ih, hf, List.length_cons]
      rw [calculateSlideXp, if_neg hP]
      simp only [XP_PER_SLIDE]
      omega

theorem get_id_not_in_take {l : List Slide}
    (hnodup : (l.map Slide.id).Nodup)
    {i : Nat} {s : Slide} (hget : l.get? i = some s) :
    s.id ∉ (l.take i).map Slide.id := by
  have hsplit : l.map Slide.id = (l.take i).map Slide.id ++ (l.drop i).map Slide.id := by
    rw [← List.map_append, List.take_append_drop]
  rw [hsplit] at hnodup
  have hdisj := (List.nodup_append.mp hnodup).2.2
  have hmem : s ∈ l.drop i := by
    have h0 : (l.drop i).get? 0 = some s := by
      rw [List.get?_drop]
      simpa using hget
    exact List.get?_mem h0
  exact fun hin => (hdisj hin) (List.mem_map_of_mem Slide.id hmem)

theorem calculateSlideXp_insert_of_ne {failed : Finset String} {x : String}
    {s : Slide} (h : s.id ≠ x) :
    calculateSlideXp (insert x failed) s = calculateSlideXp failed s := by
  simp only [calculateSlideXp, Finset.mem_insert]
  by_cases hq : s.type = SlideType.quiz <;> by_cases hm : s.id ∈ failed <;>
    simp [hq, hm, h]

theorem handleSelectOption_idx (st : PlayerState) (idx : Nat) :
    (handleSelectOption st idx).currentSlideIndex = st.currentSlideIndex := by
  simp only [handleSelectOption]
  split <;> rfl

theorem handleSelectOption_xp (st : PlayerState) (idx : Nat) :
    (handleSelectOption st idx).sessionXp = st.sessionXp := by
  simp only [handleSelectOption]
  split <;> rfl

theorem sessionInv_congr {c : Course} {st st' : PlayerState}
    (h : sessionInv c st)
    (hidx : st'.currentSlideIndex = st.currentSlideIndex)
    (hfail : st'.failedSlides = st.failedSlides)
    (hxp : st'.sessionXp = st.sessionXp) : sessionInv c st' := by
  obtain ⟨h1, h2⟩ := h
  refine ⟨by rw [hidx]; exact h1, ?_⟩
  rw [hidx, hfail, hxp, h2]

theorem sessionInv_init (c : Course) (hne : c.slides ≠ []) :
    sessionInv c initialPlayerState :=
  ⟨List.length_pos.mpr hne, rfl⟩

theorem sessionInv_step (c : Course) (hnodup : (c.slides.map Slide.id).Nodup)
    {st : PlayerState} (hInv : sessionInv c st) (op : PlayerOp) :
    sessionInv c (stepOp c st op).1 := by
  obtain ⟨hlt, hxp⟩ := hInv
  rcases hE : stepE c st op with e | r
  · rw [stepOp_of_error hE]
    exact ⟨hlt, hxp⟩
  · obtain ⟨st', evs⟩ := r
    rw [stepOp_of_ok hE]
    show sessionInv c st'
    rcases hcur : currentSlide c st with - | slide
    · rw [currentSlide, List.get?_eq_get hlt] at hcur
      exact absurd hcur (by simp)
    have hgets : c.slides.get? st.currentSlideIndex = some slide := hcur
    cases op with
    | selectOption idx =>
      simp only [stepE, hcur] at hE
      split at hE
      · rw [Except.ok.injEq, Prod.mk.injEq] at hE
        rw [← hE.1]
        exact sessionInv_congr ⟨hlt, hxp⟩ (handleSelectOption_idx st idx)
          (handleSelectOption_failed st idx) (handleSelectOption_xp st idx)
      · rw [Except.ok.injEq, Prod.mk.injEq] at hE
        rw [← hE.1]
        exact ⟨hlt, hxp⟩
    | retry =>
      simp only [stepE, hcur] at hE
      split at hE
      · rw [Except.ok.injEq, Prod.mk.injEq] at hE
        rw [← hE.1]
        exact sessionInv_congr ⟨hlt, hxp⟩ rfl rfl rfl
      · exact absurd hE (by simp)
    | submitAnswer =>
      simp only [stepE, hcur] at hE
      split at hE
      · exact absurd hE (by simp)
      split at hE
      · exact absurd hE (by simp)
      split at hE
      · exact absurd hE (by simp)
      rw [Except.ok.injEq] at hE
      rcases hsel : st.selectedOption with - | sel <;>
        rcases hqd : slide.quizData with - | qd <;>
          simp only [handleQuizSubmit, hsel, hqd] at hE <;>
          rw [Prod.mk.injEq] at hE <;> rw [← hE.1]
      · exact ⟨hlt, hxp⟩
      · exact ⟨hlt, hxp⟩
      · exact ⟨hlt, hxp⟩
      · split
        · exact sessionInv_congr ⟨hlt, hxp⟩ rfl rfl rfl
        · refine ⟨hlt, ?_⟩
          have hmap : (c.slides.take st.currentSlideIndex).map
                (calculateSlideXp (insert slide.id st.failedSlides))
              = (c.slides.take st.currentSlideIndex).map
                (calculateSlideXp st.failedSlides) :=
            List.map_congr_left (fun s' hs' =>
              calculateSlideXp_insert_of_ne (fun he =>
                (get_id_not_in_take hnodup hgets)
                  (he ▸ List.mem_map_of_mem Slide.id hs')))
          rw [hmap]
          exact hxp
    | advance =>
      simp only [stepE, hcur] at hE
      split at hE
      · exact absurd hE (by simp)
      rw [Except.ok.injEq] at hE
      simp only [handleNext] at hE
      split at hE
      · rw [Prod.mk.injEq] at hE
        rw [← hE.1]
        exact ⟨hlt, hxp⟩
      · rename_i hlast
        rw [Prod.mk.injEq] at hE
        rw [← hE.1]
        have hgets2 : c.slides[st.currentSlideIndex]? = some slide := by
          rw [← List.get?_eq_getElem?]
          exact hgets
        refine ⟨?_, ?_⟩
        · show st.currentSlideIndex + 1 < c.slides.length
          omega
        · show st.sessionXp + calculateSlideXp st.failedSlides slide
            = ((c.slides.take (st.currentSlideIndex + 1)).map
                (calculateSlideXp st.failedSlides)).sum
          rw [List.take_succ, hgets2]
          simp [hxp]

theorem reachable_inv (c : Course) (hnodup : (c.slides.map Slide.id).Nodup)
    (hne : c.slides ≠ []) {st : PlayerState} (h : Reachable c st) :
    sessionInv c st := by
  induction h with
  | init => exact sessionInv_init c hne
  | next op h ih => exact sessionInv_step c hnodup ih op

theorem reachable_foldl (c : Course) (ops : List PlayerOp) {st : PlayerState}
    (h : Reachable c st) :
    Reachable c (ops.foldl (fun s op => (stepOp c s op).1) st) := by
  induction ops generalizing st with
  | nil => exact h
  | cons op t ih => exact ih (Reachable.next op h)

theorem reachable_runOps (c : Course) (ops : List PlayerOp) :
    Reachable c (runOps c ops) :=
  reachable_foldl c ops Reachable.init

/-- C2: whenever a session that started on the course and is still
governed by the player's operations emits its completion event, the
reported total XP is `(N - K) * XP_PER_SLIDE`, where `N` is the slide
count and `K` is the number of quiz slides whose ids are in the session's
failed-slide set (exactly the quizzes ever answered incorrectly: ids
enter that set only on an incorrect check and are never removed).  Slide
ids are assumed unique within the course, per the data-model
invariant. -/
theorem completion_total_xp (c : Course) (hnodup : (c.slides.map Slide.id).Nodup)
    (hne : c.slides ≠ []) (st : PlayerState) (hreach : Reachable c st)
    (op : PlayerOp) (cid : String) (x : Nat)
    (hev : PlayerEvent.complete cid x ∈ (stepOp c st op).2) :
    x = XP_PER_SLIDE * (c.slides.length - everFailedQuizCount c st.failedSlides) := by
  obtain ⟨hlt, hxp⟩ := reachable_inv c hnodup hne hreach
  rcases hE : stepE c st op with e | r
  · rw [stepOp_of_error hE] at hev
    exact absurd hev (by simp)
  obtain ⟨st', evs⟩ := r
  rw [stepOp_of_ok hE] at hev
  have hev' : PlayerEvent.complete cid x ∈ evs := hev
  rcases hcur : currentSlide c st with - | slide
  · rw [currentSlide, List.get?_eq_get hlt] at hcur
    exact absurd hcur (by simp)
  have hgets : c.slides.get? st.currentSlideIndex = some slide := hcur
  cases op with
  | selectOption idx =>
    simp only [stepE, hcur] at hE
    split at hE <;>
      · rw [Except.ok.injEq, Prod.mk.injEq] at hE
        rw [← hE.2] at hev'
        exact absurd hev' (by simp)
  | retry =>
    simp only [stepE, hcur] at hE
    split at hE
    · rw [Except.ok.injEq, Prod.mk.injEq] at hE
      rw [← hE.2] at hev'
      exact absurd hev' (by simp)
    · exact absurd hE (by simp)
  | submitAnswer =>
    simp only [stepE, hcur] at hE
    split at hE
    · exact absurd hE (by simp)
    split at hE
    · exact absurd hE (by simp)
    split at hE
    · exact absurd hE (by simp)
    rw [Except.ok.injEq] at hE
    rcases hsel : st.selectedOption with - | sel <;>
      rcases hqd : slide.quizData with - | qd <;>
        simp only [handleQuizSubmit, hsel, hqd] at hE <;>
        rw [Prod.mk.injEq] at hE <;> rw [← hE.2] at hev' <;>
        exact absurd hev' (by simp)
  | advance =>
    simp only [stepE, hcur] at hE
    split at hE
    · exact absurd hE (by simp)
    rw [Except.ok.injEq] at hE
    simp only [handleNext] at hE
    split at hE
    · rename_i hlast
      rw [Prod.mk.injEq] at hE
      rw [← hE.2] at hev'
      simp only [List.mem_singleton] at hev'
      rw [PlayerEvent.complete.injEq] at hev'
      have hx : x = st.sessionXp + calculateSlideXp st.failedSlides slide := hev'.2
      have hlen : st.currentSlideIndex + 1 = c.slides.length := by omega
      have hgets2 : c.slides[st.currentSlideIndex]? = some slide := by
        rw [← List.get?_eq_getElem?]
        exact hgets
      have hsum : st.sessionXp + calculateSlideXp st.failedSlides slide
          = ((c.slides.take (st.currentSlideIndex + 1)).map
              (calculateSlideXp st.failedSlides)).sum := by
        rw [List.take_succ, hgets2]
        simp [hxp]
      rw [hx, hsum, hlen, List.take_length, sum_calculateSlideXp]
      rfl
    · rw [Prod.mk.injEq] at hE
      rw [← hE.2] at hev'
      exact absurd hev' (by simp)

theorem completion_total_xp_witness :
    150 = XP_PER_SLIDE * (exampleCourse.slides.length
        - everFailedQuizCount exampleCourse
            (runOps exampleCourse opsRetryRun).failedSlides) :=
  completion_total_xp exampleCourse (by decide) (by decide)
    (runOps exampleCourse opsRetryRun)
    (reachable_runOps exampleCourse opsRetryRun)
    PlayerOp.advance "course1" 150 (by decide)

end MahsaLearn
